import Mathlib

/-!
Verification development for the ModPy declarative mod compiler.

The Python sources are shallowly embedded: strings are modelled as
`List Char` (ASCII discipline for case conversion and whitespace, which
covers every character class the code manipulates), Python dicts as
insertion-ordered association lists, JSON values as the inductive `JVal`,
and fallible constructors as `Except`-valued functions.
-/

namespace ModPy

/-! ## Character classes (from `fabric_1_21_11.py` regexes) -/

/-- ASCII lower-case letter. -/
def isLowerAlpha (c : Char) : Bool := 'a' ≤ c && c ≤ 'z'

/-- ASCII upper-case letter. -/
def isUpperAlpha (c : Char) : Bool := 'A' ≤ c && c ≤ 'Z'

/-- ASCII digit. -/
def isDigitCh (c : Char) : Bool := '0' ≤ c && c ≤ '9'

/-- ASCII whitespace, the characters Python `str.strip()` removes. -/
def isSpaceCh (c : Char) : Bool :=
  c = ' ' || c = '\t' || c = '\n' || c = '\r' || c = '\x0b' || c = '\x0c'

/-- Membership in the path character class `[a-z0-9/._-]`. -/
def isPathChar (c : Char) : Bool :=
  isLowerAlpha c || isDigitCh c || c = '/' || c = '.' || c = '_' || c = '-'

/-- Membership in the namespace character class `[a-z0-9_.-]` of
`_is_literal_identifier` (no slash). -/
def isNsChar (c : Char) : Bool :=
  isLowerAlpha c || isDigitCh c || c = '_' || c = '.' || c = '-'

/-- The separators trimmed from the ends of a normalized path:
the Python strip call over underscore, dot, slash, hyphen. -/
def isSepChar (c : Char) : Bool :=
  c = '_' || c = '.' || c = '/' || c = '-'

/-- ASCII lower-casing of one character, the model of Python `str.lower`. -/
def lowerCh (c : Char) : Char :=
  if isUpperAlpha c then Char.ofNat (c.toNat + 32) else c

/-- ASCII upper-casing of one character. -/
def upperCh (c : Char) : Char :=
  if isLowerAlpha c then Char.ofNat (c.toNat - 32) else c

/-! ## String helpers shared by the normalizers -/

/-- Python `str.strip()`: drop ASCII whitespace from both ends. -/
def pyStrip (l : List Char) : List Char :=
  ((l.dropWhile isSpaceCh).reverse.dropWhile isSpaceCh).reverse

/-- Python strip over the separator set (underscore, dot, slash, hyphen) from both ends. -/
def stripSeps (l : List Char) : List Char :=
  ((l.dropWhile isSepChar).reverse.dropWhile isSepChar).reverse

/-- Python `str.replace(" ", "_")`. -/
def replaceSpace (l : List Char) : List Char :=
  l.map (fun c => if c = ' ' then '_' else c)

/-- Model of `re.sub(r"[^a-z0-9/._-]+", "_", s)`: each maximal run of
characters outside the path class becomes one underscore.  The flag records
whether the previous character was part of such a run (its underscore has
already been emitted). -/
def collapseBadAux (prevBad : Bool) : List Char → List Char
  | [] => []
  | c :: cs =>
    if isPathChar c then c :: collapseBadAux false cs
    else if prevBad then collapseBadAux true cs
    else '_' :: collapseBadAux true cs

/-- Model of `re.sub(r"_+", "_", s)`: collapse runs of underscores.  The
flag records whether the previous character was an underscore. -/
def collapseUnd (prevU : Bool) : List Char → List Char
  | [] => []
  | c :: cs =>
    if c = '_' then
      if prevU then collapseUnd true cs else '_' :: collapseUnd true cs
    else c :: collapseUnd false cs

/-- Python truthiness of an optional string argument: `a or b` falls back
when `a` is `None` or empty. -/
def pyOrStr (a b : Option (List Char)) : Option (List Char) :=
  match a with
  | some s => if s = [] then b else some s
  | none => b

/-! ## The identifier normalizer (`_normalize_id_path` and friends) -/

/-- The normalization pipeline of `_normalize_id_path` before the fallback:
lower-case, strip whitespace, spaces to underscores, replace runs of
characters outside `[a-z0-9/._-]` with one underscore, collapse underscore
runs, trim the separator set from both ends. -/
def normalizeIdPathCore (value : List Char) : List Char :=
  stripSeps (collapseUnd false (collapseBadAux false (replaceSpace (pyStrip (value.map lowerCh)))))

/-- Model of `_normalize_id_path(value, fallback)`; `none` models Python
`None`. -/
def normalizeIdPath (value : Option (List Char)) (fallback : List Char) : List Char :=
  let r := normalizeIdPathCore (value.getD [])
  if r = [] then fallback else r

/-- String-level wrapper of `normalizeIdPath`. -/
def normalizeIdPathS (value : Option String) (fallback : String) : String :=
  String.mk (normalizeIdPath (value.map String.data) fallback.data)

/-- Spec-worded normalizer, original claim wording: characters outside the
path class are stripped (removed), then underscores are collapsed and the
ends trimmed.  Used only to compare the spec sentence with the code. -/
def specNormalizeStripCore (value : List Char) : List Char :=
  stripSeps (collapseUnd false ((replaceSpace (pyStrip (value.map lowerCh))).filter isPathChar))

/-- Spec-worded normalizer with the amended wording: each character outside
the path class is replaced by an underscore (per character, the later
underscore-collapsing step merges runs), then underscores are collapsed and
the ends trimmed. -/
def specNormalizeAmendCore (value : List Char) : List Char :=
  stripSeps (collapseUnd false
    ((pyStrip (value.map lowerCh)).map (fun c => if isPathChar c then c else '_')))

/-- Fallback wrapper of the amended spec-worded normalizer. -/
def specNormalizeAmend (value : Option (List Char)) (fallback : List Char) : List Char :=
  let r := specNormalizeAmendCore (value.getD [])
  if r = [] then fallback else r

/-! ## Cross-reference resolution (`_is_literal_identifier`,
`_resolve_item_like_id`) -/

/-- Model of `_is_literal_identifier`: full match of
`[a-z0-9_.-]+:[a-z0-9/._-]+`.  Neither class contains a colon, so the
namespace is everything before the first colon. -/
def isLiteralIdentifier (value : List Char) : Bool :=
  let ns := value.takeWhile (fun c => c ≠ ':')
  match value.dropWhile (fun c => c ≠ ':') with
  | ':' :: path =>
    decide (ns ≠ []) && ns.all isNsChar && decide (path ≠ []) && path.all isPathChar
  | _ => false

/-- Model of `_resolve_item_like_id`. -/
def resolveItemLikeId (value modId : List Char)
    (generatedItems generatedBlocks : List (List Char)) : List Char :=
  if isLiteralIdentifier value then value
  else
    let normalized := normalizeIdPath (some value) "generated".data
    if generatedItems.contains normalized || generatedBlocks.contains normalized then
      modId ++ ':' :: normalized
    else
      "minecraft".data ++ ':' :: normalized

/-! ## JSON-compatible values

Python dicts are insertion-ordered association lists; floats of the
embedded element fields are modelled exactly as rationals (the code only
converts, clamps with `max`, and stores them). -/

inductive JVal where
  | null
  | bool (b : Bool)
  | int (n : Int)
  | rat (q : Rat)
  | str (s : String)
  | arr (xs : List JVal)
  | obj (fields : List (String × JVal))

/-- Association-list lookup, the model of Python `dict.get`. -/
def assocGet {α : Type} : List (String × α) → String → Option α
  | [], _ => none
  | (k0, v0) :: rest, k => if k0 = k then some v0 else assocGet rest k

/-- Association-list update, the model of Python `d[k] = v`: replace in
place when the key exists (dicts keep the original insertion position),
append otherwise. -/
def assocSet {α : Type} : List (String × α) → String → α → List (String × α)
  | [], k, v => [(k, v)]
  | (k0, v0) :: rest, k, v =>
    if k0 = k then (k0, v) :: rest else (k0, v0) :: assocSet rest k v

/-- A `None`-able string property value. -/
def optStrJ : Option String → JVal
  | some s => .str s
  | none => .null

/-- The structured action record built by `Mod.sendConsole`. -/
def consoleAction (command : String) : JVal :=
  .obj [("type", .str "console"), ("command", .str command)]

/-! ## Element model (`elements.py`) -/

/-- One declared content unit: `BaseElement` with its category-fixed
`KIND`, normalized name, `EVENT_NAMES` table, property dict, and the
per-event lists of captured action lists. -/
structure Element where
  kind : String
  name : String
  eventNames : List String
  properties : List (String × JVal)
  events : List (String × List (List JVal))

/-- Appending to `self.events[name]` of the `defaultdict(list)`: a fresh
key materializes at the end with a one-element list. -/
def eventsAppend : List (String × List (List JVal)) → String → List JVal →
    List (String × List (List JVal))
  | [], k, v => [(k, [v])]
  | (k0, ls) :: rest, k, v =>
    if k0 = k then (k0, ls ++ [v]) :: rest else (k0, ls) :: eventsAppend rest k v

/-- Model of `BaseElement.to_dict`. -/
def toDict (e : Element) : JVal :=
  .obj [("kind", .str e.kind), ("name", .str e.name),
        ("properties", .obj e.properties),
        ("events", .obj (e.events.map (fun kv => (kv.1, JVal.arr (kv.2.map JVal.arr)))))]

/-! ## Generator plugin data and the registry (`generators/registry.py`) -/

/-- The element categories offered by the concrete Fabric generator. -/
inductive FabCategory where
  | tab | item | block | recipe | tag | javaSource | command | entity | biome | worldgen
deriving DecidableEq

/-- A generator as the registry sees it: its key and its `element_types`
table (category name to constructor, the constructor itself identified by
its `FabCategory`). -/
structure Generator where
  key : String
  elementTypes : List (String × FabCategory)
deriving DecidableEq

/-- The process-wide generator table `_GENERATORS`. -/
abbrev Registry := List (String × Generator)

/-- Model of `register_generator`. -/
def registerGenerator (reg : Registry) (generator : Generator) (replace : Bool) :
    Except String Registry :=
  if generator.key = "" then .error "Generator key must be a non-empty string"
  else if (assocGet reg generator.key).isSome && !replace then
    .error ("Generator already registered: " ++ generator.key)
  else .ok (assocSet reg generator.key generator)

/-- Model of `get_generator`; the error value carries the key, as
`KeyError(key)` does. -/
def getGenerator (reg : Registry) (key : String) : Except String Generator :=
  match assocGet reg key with
  | some g => .ok g
  | none => .error key

/-- Model of `list_generators`: the keys, sorted. -/
def listGenerators (reg : Registry) : List String :=
  (reg.map Prod.fst).mergeSort (· ≤ ·)

/-! ## Mod aggregate (`mod.py`) -/

/-- The root aggregate: identity fields, the bound generator, the ordered
element list, startup actions, and the action-capture stack (innermost
context first, so Python `stack[-1]` is the head). -/
structure Mod where
  author : String
  modId : String
  name : String
  version : String
  generatorKey : String
  generator : Generator
  elements : List Element
  startupActions : List JVal
  captureStack : List (List JVal)

/-- Model of `Mod.__init__`: the generator key is resolved against the
registry before the aggregate exists. -/
def mkMod (reg : Registry) (author generatorKey modId name version : String) :
    Except String Mod :=
  match getGenerator reg generatorKey with
  | .error e => .error e
  | .ok g =>
    .ok { author := author, modId := modId, name := name, version := version,
          generatorKey := generatorKey, generator := g,
          elements := [], startupActions := [], captureStack := [] }

/-- Model of `Mod.__getattr__`: category lookup in the bound generator's
`element_types`, `AttributeError(name)` on a miss. -/
def modGetattr (m : Mod) (attr : String) : Except String FabCategory :=
  match assocGet m.generator.elementTypes attr with
  | some et => .ok et
  | none => .error attr

/-- Model of `Mod.sendConsole`: append to the innermost active capture
context, or to the startup actions when no context is active. -/
def sendConsole (m : Mod) (command : String) : Mod :=
  match m.captureStack with
  | [] => { m with startupActions := m.startupActions ++ [consoleAction command] }
  | top :: rest => { m with captureStack := (top ++ [consoleAction command]) :: rest }

/-- Model of `Mod.add`. -/
def addElement (m : Mod) (e : Element) : Mod :=
  { m with elements := m.elements ++ [e] }

/-- Model of `Mod.to_manifest`. -/
def toManifest (m : Mod) : JVal :=
  .obj [("author", .str m.author), ("generator", .str m.generatorKey),
        ("mod_id", .str m.modId), ("name", .str m.name), ("version", .str m.version),
        ("startup_actions", .arr m.startupActions),
        ("elements", .arr (m.elements.map toDict))]

/-! ## Action capture (`Mod._run_action_capture`)

A handler body is a program of the only observable operations available to
it: `sendConsole` calls, raising an exception, and nested captures. -/

mutual
inductive HOp where
  | send (command : String)
  | fail
  | nest (sub : HProg)
inductive HProg where
  | nil
  | seq (op : HOp) (rest : HProg)
end

mutual
/-- Run a handler body; the flag is true when it raised.  Execution stops
at the first raise, and a nested capture pops its context before the
error propagates (the `finally` of `_run_action_capture`). -/
def runProg : Mod → HProg → Mod × Bool
  | m, .nil => (m, false)
  | m, .seq (.send c) rest => runProg (sendConsole m c) rest
  | m, .seq .fail _ => (m, true)
  | m, .seq (.nest sub) rest =>
    let r := runCaptureStep m sub
    if r.2 then (r.1, true) else runProg r.1 rest

/-- A nested `_run_action_capture` call inside a handler: push an empty
context, run, pop. -/
def runCaptureStep (m : Mod) (sub : HProg) : Mod × Bool :=
  let r := runProg { m with captureStack := [] :: m.captureStack } sub
  ({ r.1 with captureStack := r.1.captureStack.tail }, r.2)
end

/-- Model of `Mod._run_action_capture`: push an empty recording context,
run the procedure, pop the context whether or not it raised; return the
recorded actions, or `none` when the error propagates. -/
def runActionCapture (m : Mod) (proc : HProg) : Mod × Option (List JVal) :=
  let r := runProg { m with captureStack := [] :: m.captureStack } proc
  let popped := { r.1 with captureStack := r.1.captureStack.tail }
  if r.2 then (popped, none) else (popped, some (r.1.captureStack.headD []))

/-- The top-level `sendConsole` actions of a handler body, in call order
(actions of nested captures are recorded in their own context). -/
def progSends : HProg → List JVal
  | .nil => []
  | .seq (.send c) rest => consoleAction c :: progSends rest
  | .seq .fail _ => []
  | .seq (.nest _) rest => progSends rest

/-- Whether running the handler body raises. -/
def progRaises : HProg → Bool
  | .nil => false
  | .seq (.send _) rest => progRaises rest
  | .seq .fail _ => true
  | .seq (.nest sub) rest => progRaises sub || progRaises rest

/-- Model of the `_ElementEventNamespace` decorator: unknown event names
fail first; otherwise the handler runs under a fresh capture context and
the recorded list is appended to that event's slot. -/
def registerEvent (m : Mod) (e : Element) (eventName : String) (handler : HProg) :
    Except String (Mod × Element) :=
  if e.eventNames.contains eventName then
    match runActionCapture m handler with
    | (m1, some actions) =>
      .ok (m1, { e with events := eventsAppend e.events eventName actions })
    | (_, none) => .error "handler raised"
  else .error eventName

/-! ## Fabric element constructors (`fabric_1_21_11.py`) -/

/-- The `_RARITIES` table. -/
def RARITIES : List (String × String) :=
  [("common", "COMMON"), ("uncommon", "UNCOMMON"), ("rare", "RARE"), ("epic", "EPIC")]

/-- The `_SPAWN_GROUPS` table. -/
def SPAWN_GROUPS : List (String × String) :=
  [("monster", "MONSTER"), ("creature", "CREATURE"), ("ambient", "AMBIENT"),
   ("water_creature", "WATER_CREATURE"), ("water_ambient", "WATER_AMBIENT"),
   ("underground_water_creature", "UNDERGROUND_WATER_CREATURE"),
   ("axolotls", "AXOLOTLS"), ("misc", "MISC")]

/-- Python `str.lower` on a string value. -/
def lowerS (s : String) : String := String.mk (s.data.map lowerCh)

/-- Python truthiness of an optional string. -/
def pyTruthy : Option String → Bool
  | some s => decide (s ≠ "")
  | none => false

/-- Python `str.capitalize`: first character upper-cased, the rest
lower-cased. -/
def capitalizeWord : List Char → List Char
  | [] => []
  | c :: cs => upperCh c :: cs.map lowerCh

/-- Splitting on runs of the separator class (underscore, slash, dot,
hyphen), dropping empty words, the model of the split inside
`_display_name`.  The accumulator holds the current word reversed. -/
def splitSepsAux (cur : List Char) : List Char → List (List Char)
  | [] => if cur = [] then [] else [cur.reverse]
  | c :: cs =>
    if isSepChar c then
      if cur = [] then splitSepsAux [] cs else cur.reverse :: splitSepsAux [] cs
    else splitSepsAux (c :: cur) cs

/-- Model of `_display_name`. -/
def displayNameOf (identifier : String) : String :=
  let words := splitSepsAux [] identifier.data
  if words = [] then "Generated"
  else String.mk (List.intercalate " ".data (words.map capitalizeWord))

/-- Model of `FabricItem.__init__`: name normalization, display-name
fallback, rarity table lookup, and the numeric conversions exactly as the
source writes them (`max(1, int(max_count))` and
`max(1, int(durability))`). -/
def fabricItemMk (identifier name texture model creativeTab : Option String)
    (maxCount : Int) (durability : Option Int) (fireproof : Bool) (rarity : String) :
    Element :=
  let itemId := String.mk (normalizeIdPath
    (pyOrStr (identifier.map String.data) (name.map String.data)) "item".data)
  let displayName := if pyTruthy name then name.getD "" else displayNameOf itemId
  let rarityName := (assocGet RARITIES (lowerS rarity)).getD "COMMON"
  { kind := "item", name := itemId, eventNames := ["Drop", "Use"], events := [],
    properties :=
      [("identifier", .str itemId),
       ("display_name", .str displayName),
       ("texture", optStrJ texture),
       ("model", optStrJ model),
       ("creative_tab",
         if pyTruthy creativeTab then .str (normalizeIdPathS creativeTab "") else .null),
       ("max_count", .int (max 1 maxCount)),
       ("durability", match durability with | some d => .int (max 1 d) | none => .null),
       ("fireproof", .bool fireproof),
       ("rarity", .str rarityName)] }

/-- Model of `_spawn_group_constant`. -/
def spawnGroupConstant (value : String) : String :=
  (assocGet SPAWN_GROUPS (String.mk (pyStrip (value.data.map lowerCh)))).getD "CREATURE"

/-- Hex digit in the class `[0-9a-f]`. -/
def isHexCh (c : Char) : Bool := isDigitCh c || ('a' ≤ c && c ≤ 'f')

/-- Value of a lower-case hex digit. -/
def hexDigitVal (c : Char) : Nat :=
  if isDigitCh c then c.toNat - 48 else c.toNat - 87

/-- Hex string value, `int(text, 16)` on a validated string. -/
def hexVal (l : List Char) : Int :=
  l.foldl (fun acc c => 16 * acc + (hexDigitVal c : Int)) 0

/-- The `int | str | None` input type of `_parse_color`. -/
inductive ColorInput where
  | cNone
  | cInt (n : Int)
  | cStr (s : String)

/-- Model of `_parse_color`: integers are clamped to 24 bits, strings are
stripped, lower-cased, may drop a leading hash or `0x`, and must then be
one to six hex digits. -/
def parseColor : ColorInput → Except String (Option Int)
  | .cNone => .ok none
  | .cInt n => .ok (some (max 0 (min n 0xFFFFFF)))
  | .cStr s =>
    let t0 := (pyStrip s.data).map lowerCh
    let t1 := match t0 with | '#' :: r => r | l => l
    let t2 := match t1 with | '0' :: 'x' :: r => r | l => l
    if decide (t2 ≠ []) && decide (t2.length ≤ 6) && t2.all isHexCh then
      .ok (some (hexVal t2))
    else .error "Invalid RGB color value"

/-- Model of `FabricEntity.__init__`.  Floats are embedded as exact
rationals; the source's clamps `max(0.1, float(width))`,
`max(1.0, float(max_health))`, etc. appear verbatim. -/
def fabricEntityMk (identifier name : Option String) (spawnGroup : String)
    (width height maxHealth movementSpeed attackDamage : Rat)
    (creativeTab : Option String) (spawnEggPrimary spawnEggSecondary : ColorInput)
    (trackingRange trackedUpdateRate : Int) (forceTrackedVelocityUpdates : Bool) :
    Except String Element :=
  let entityId := String.mk (normalizeIdPath
    (pyOrStr (identifier.map String.data) (name.map String.data)) "entity".data)
  let displayName := if pyTruthy name then name.getD "" else displayNameOf entityId
  match parseColor spawnEggPrimary with
  | .error e => .error e
  | .ok p0 =>
    match parseColor spawnEggSecondary with
    | .error e => .error e
    | .ok s0 =>
      let primary := match p0, s0 with | none, some s => some s | _, _ => p0
      let secondary := match s0, p0 with | none, some p => some p | _, _ => s0
      .ok { kind := "entity", name := entityId, eventNames := ["Spawn", "Death"],
            events := [],
            properties :=
              [("identifier", .str entityId),
               ("display_name", .str displayName),
               ("spawn_group", .str (spawnGroupConstant spawnGroup)),
               ("width", .rat (max (1 / 10 : Rat) width)),
               ("height", .rat (max (1 / 10 : Rat) height)),
               ("max_health", .rat (max 1 maxHealth)),
               ("movement_speed", .rat (max (1 / 100 : Rat) movementSpeed)),
               ("attack_damage", .rat (max 0 attackDamage)),
               ("creative_tab",
                 if pyTruthy creativeTab then .str (normalizeIdPathS creativeTab "")
                 else .null),
               ("spawn_egg_primary",
                 match primary with | some n => .int n | none => .null),
               ("spawn_egg_secondary",
                 match secondary with | some n => .int n | none => .null),
               ("tracking_range", .int (max 1 trackingRange)),
               ("tracked_update_rate", .int (max 1 trackedUpdateRate)),
               ("force_tracked_velocity_updates", .bool forceTrackedVelocityUpdates)] }

/-- The `element_types` table of `Fabric12111Generator`. -/
def fabricElementTypes : List (String × FabCategory) :=
  [("Tab", .tab), ("Item", .item), ("Block", .block), ("Recipe", .recipe),
   ("Tag", .tag), ("JavaSource", .javaSource), ("Command", .command),
   ("Entity", .entity), ("Biome", .biome), ("Worldgen", .worldgen)]

/-- The built-in Fabric generator. -/
def fabricGenerator : Generator :=
  { key := "minecraft-fabric-1.21.11", elementTypes := fabricElementTypes }

/-- The registry after the package's import-time self-registration. -/
def builtinRegistry : Registry :=
  match registerGenerator [] fabricGenerator true with
  | .ok r => r
  | .error _ => []

/-! ## Compilation as a file-system transformation
(`Fabric12111Generator.compile`)

A file system is a partial map from paths (segment lists) to file
contents.  `compile` removes the target root tree when it exists, then
performs a sequence of whole-file writes, each at a path determined only by
the mod aggregate and its side inputs. -/

/-- The target root `output_dir/<mod_id>-fabric-<minecraft_version>`. -/
def fabricRootPath (outputDir : List String) (modId : String) : List String :=
  outputDir ++ [modId ++ "-fabric-" ++ "1.21.11"]

/-- The `shutil.rmtree` of the root when it exists: afterwards nothing
lives under the root. -/
def removeTree (root : List String) (fs : List String → Option String) :
    List String → Option String :=
  fun p => if root.isPrefixOf p then none else fs p

/-- Apply a sequence of whole-file writes in order (`_write_text` and
`_write_json` overwrite). -/
def applyWrites : List (List String × String) → (List String → Option String) →
    List String → Option String
  | [], fs => fs
  | w :: ws, fs => applyWrites ws (fun p => if p = w.1 then some w.2 else fs p)

/-- One generator run against a prior file-system state: remove the root
tree, then emit the writes computed from the aggregate. -/
def runCompileEmission (root : List String) (writes : List (List String × String))
    (fs : List String → Option String) : List String → Option String :=
  applyWrites writes (removeTree root fs)

/-! ## Worldgen feature aliasing (`_write_worldgen_entries`) -/

/-- The `_WORLDGEN_FEATURE_ALIASES` table. -/
def WORLDGEN_FEATURE_ALIASES : List (String × String) :=
  [("minecraft:ore_diamond", "minecraft:ore_diamond_small")]

/-- The payload rewrite performed just before a worldgen data file is
written: only for `placed_feature` entries, and only when the resolved
payload holds a string `feature` field, that field is replaced by its
alias (or kept when the table has no entry for it). -/
def applyWorldgenFeatureAlias (worldgenType : String) (payload : List (String × JVal)) :
    List (String × JVal) :=
  if worldgenType = "placed_feature" then
    match assocGet payload "feature" with
    | some (JVal.str f) =>
      assocSet payload "feature" (.str ((assocGet WORLDGEN_FEATURE_ALIASES f).getD f))
    | _ => payload
  else payload

/-! ## A concrete declaration scenario -/

/-- A mod bound to the built-in Fabric generator, with the constructor's
default identity fields. -/
def fooMod : Mod :=
  { author := "tester", modId := "examplemod", name := "Example Mod",
    version := "0.1.0", generatorKey := "minecraft-fabric-1.21.11",
    generator := fabricGenerator, elements := [], startupActions := [],
    captureStack := [] }

/-- `Item(name="Foo")` with every other argument at its default. -/
def fooItem : Element :=
  fabricItemMk none (some "Foo") none none none 64 none false "common"

/-- The same element after one "Use" handler with a single
`sendConsole("ping")` was registered on it. -/
def fooItemRegistered : Element :=
  { fooItem with events := [("Use", [[consoleAction "ping"]])] }

/-! # Theorems

Helper lemmas first, then one theorem per claim. -/

/-! ## Normalization lemmas -/

theorem mem_collapseBadAux {c : Char} :
    ∀ (l : List Char) (b : Bool), c ∈ collapseBadAux b l → isPathChar c = true := by
  intro l
  induction l with
  | nil => intro b h; simp [collapseBadAux] at h
  | cons a t ih =>
    intro b h
    by_cases ha : isPathChar a
    · rw [collapseBadAux, if_pos ha] at h
      rcases List.mem_cons.mp h with rfl | h
      · exact ha
      · exact ih false h
    · rw [collapseBadAux, if_neg ha] at h
      cases b with
      | true => exact ih true (by simpa using h)
      | false =>
        rcases List.mem_cons.mp (by simpa using h) with rfl | h
        · decide
        · exact ih true h

theorem mem_collapseUnd {c : Char} :
    ∀ (l : List Char) (b : Bool), c ∈ collapseUnd b l → c ∈ l := by
  intro l
  induction l with
  | nil => intro b h; simp [collapseUnd] at h
  | cons a t ih =>
    intro b h
    by_cases ha : a = '_'
    · subst ha
      rw [collapseUnd, if_pos rfl] at h
      cases b with
      | true => exact List.mem_cons_of_mem _ (ih true (by simpa using h))
      | false =>
        rcases List.mem_cons.mp (by simpa using h) with rfl | h
        · exact List.mem_cons_self _ _
        · exact List.mem_cons_of_mem _ (ih true h)
    · rw [collapseUnd, if_neg ha] at h
      rcases List.mem_cons.mp h with rfl | h
      · exact List.mem_cons_self _ _
      · exact List.mem_cons_of_mem _ (ih false h)

theorem mem_stripSeps {c : Char} (l : List Char) (h : c ∈ stripSeps l) : c ∈ l := by
  unfold stripSeps at h
  rw [List.mem_reverse] at h
  have h1 := (List.dropWhile_suffix isSepChar).sublist.mem h
  rw [List.mem_reverse] at h1
  exact (List.dropWhile_suffix isSepChar).sublist.mem h1

theorem head?_dropWhile_not (p : Char → Bool) :
    ∀ (l : List Char) {c : Char}, (l.dropWhile p).head? = some c → p c = false := by
  intro l
  induction l with
  | nil => intro c h; simp [List.dropWhile] at h
  | cons a t ih =>
    intro c h
    rw [List.dropWhile_cons] at h
    split at h
    · exact ih h
    · next hpa => simp at h; subst h; simpa using hpa

theorem stripSeps_head?_not_sep (l : List Char) {c : Char}
    (h : (stripSeps l).head? = some c) : isSepChar c = false := by
  unfold stripSeps at h
  rw [List.head?_reverse] at h
  have hne : (l.dropWhile isSepChar).reverse.dropWhile isSepChar ≠ [] := by
    intro he; rw [he] at h; simp at h
  obtain ⟨t, ht⟩ := @List.dropWhile_suffix Char ((l.dropWhile isSepChar).reverse) isSepChar
  have hA : ((l.dropWhile isSepChar).reverse).getLast? = some c := by
    rw [← ht, List.getLast?_append_of_ne_nil t hne]
    exact h
  rw [List.getLast?_reverse] at hA
  exact head?_dropWhile_not isSepChar l hA

theorem stripSeps_getLast?_not_sep (l : List Char) {c : Char}
    (h : (stripSeps l).getLast? = some c) : isSepChar c = false := by
  unfold stripSeps at h
  rw [List.getLast?_reverse] at h
  exact head?_dropWhile_not isSepChar _ h

theorem collapseUnd_collapseBadAux :
    ∀ (l : List Char) (p q : Bool), (q = true → p = true) →
      collapseUnd p (collapseBadAux q l) =
        collapseUnd p (l.map (fun c => if isPathChar c then c else '_')) := by
  intro l
  induction l with
  | nil => intro p q _; rfl
  | cons a t ih =>
    intro p q hpq
    by_cases ha : isPathChar a
    · by_cases hu : a = '_'
      · subst hu
        cases p with
        | true =>
          simp only [collapseBadAux, collapseUnd, List.map_cons, ha, if_true, ite_true]
          exact ih true false (fun _ => rfl)
        | false =>
          simp only [collapseBadAux, collapseUnd, List.map_cons, ha, if_true, ite_true,
            Bool.false_eq_true, ite_false, List.cons.injEq, true_and]
          exact ih true false (fun _ => rfl)
      · simp only [collapseBadAux, collapseUnd, List.map_cons, ha, if_true, hu,
          ite_false, List.cons.injEq, true_and]
        exact ih false false (fun h => nomatch h)
    · cases q with
      | true =>
        have hp := hpq rfl
        subst hp
        simp only [collapseBadAux, collapseUnd, List.map_cons, ha, Bool.false_eq_true,
          ite_false, ite_true, if_true]
        exact ih true true (fun _ => rfl)
      | false =>
        cases p with
        | true =>
          simp only [collapseBadAux, collapseUnd, List.map_cons, ha, Bool.false_eq_true,
            ite_false, ite_true, if_true]
          exact ih true true (fun _ => rfl)
        | false =>
          simp only [collapseBadAux, collapseUnd, List.map_cons, ha, Bool.false_eq_true,
            ite_false, ite_true, if_true, List.cons.injEq, true_and]
          exact ih true true (fun _ => rfl)

theorem normalizeIdPathCore_eq_amendCore (raw : List Char) :
    normalizeIdPathCore raw = specNormalizeAmendCore raw := by
  unfold normalizeIdPathCore specNormalizeAmendCore
  congr 1
  rw [collapseUnd_collapseBadAux _ false false (fun h => by cases h)]
  congr 1
  unfold replaceSpace
  rw [List.map_map]
  refine List.map_congr_left (fun c _ => ?_)
  by_cases hc : c = ' '
  · subst hc; rfl
  · simp [Function.comp, hc]

/-! ## C3 -/

/-- C3 counterexample: the claim says characters outside `[a-z0-9/._-]`
are stripped (removed); the code replaces runs of them with an underscore.
On input "a!b" the code yields "a_b" while the claimed stripping semantics
yields "ab". -/
theorem c3_strip_counterexample :
    normalizeIdPath (some "a!b".data) "x".data = "a_b".data ∧
    specNormalizeStripCore "a!b".data = "ab".data ∧
    "a_b".data ≠ "ab".data := by
  refine ⟨by decide, by decide, by decide⟩

/-- C3 (amended): for every input and fallback, `_normalize_id_path`
lower-cases the input, replaces whitespace with underscores, replaces each
character outside `[a-z0-9/._-]` with an underscore, collapses repeated
underscores into one, trims leading and trailing separators, and returns
the fallback exactly when the result of that pipeline is empty; being a
total function it never raises. -/
theorem c3_normalizeIdPath_spec (value : Option (List Char)) (fallback : List Char) :
    normalizeIdPath value fallback =
      (if specNormalizeAmendCore (value.getD []) = [] then fallback
       else specNormalizeAmendCore (value.getD [])) := by
  unfold normalizeIdPath
  rw [normalizeIdPathCore_eq_amendCore]

/-! ## C4 -/

/-- C4: whenever the normalization result is non-empty (the fallback is
not used), it matches `[a-z0-9/._-]*` and neither starts nor ends with a
separator (underscore, dot, slash, or hyphen). -/
theorem c4_normalizeIdPathCore_wellformed (raw : List Char)
    (hne : normalizeIdPathCore raw ≠ []) :
    (∀ c ∈ normalizeIdPathCore raw, isPathChar c = true) ∧
    (∀ c, (normalizeIdPathCore raw).head? = some c → isSepChar c = false) ∧
    (∀ c, (normalizeIdPathCore raw).getLast? = some c → isSepChar c = false) := by
  refine ⟨?_, ?_, ?_⟩
  · intro c hc
    unfold normalizeIdPathCore at hc
    exact mem_collapseBadAux _ false (mem_collapseUnd _ false (mem_stripSeps _ hc))
  · intro c hc
    exact stripSeps_head?_not_sep _ hc
  · intro c hc
    exact stripSeps_getLast?_not_sep _ hc

/-- C4 witness at the concrete input "Hello World!". -/
theorem c4_witness :
    normalizeIdPathCore "Hello World!".data ≠ [] ∧
    ((∀ c ∈ normalizeIdPathCore "Hello World!".data, isPathChar c = true) ∧
     (∀ c, (normalizeIdPathCore "Hello World!".data).head? = some c →
        isSepChar c = false) ∧
     (∀ c, (normalizeIdPathCore "Hello World!".data).getLast? = some c →
        isSepChar c = false)) :=
  ⟨by decide, c4_normalizeIdPathCore_wellformed "Hello World!".data (by decide)⟩

/-! ## C1 -/

/-- C1: every cross-referenced value resolved through
`_resolve_item_like_id` behaves as specified: a strict namespaced literal
is used verbatim; otherwise the value is normalized as a path and, when the
normalized name is among the declared item names or the declared block
names, it is qualified with the mod's own id, else with the fixed external
namespace "minecraft". -/
theorem c1_resolveItemLikeId_spec (value modId : List Char)
    (generatedItems generatedBlocks : List (List Char)) :
    (isLiteralIdentifier value = true →
      resolveItemLikeId value modId generatedItems generatedBlocks = value) ∧
    (isLiteralIdentifier value = false →
      (normalizeIdPath (some value) "generated".data ∈ generatedItems ∨
       normalizeIdPath (some value) "generated".data ∈ generatedBlocks) →
      resolveItemLikeId value modId generatedItems generatedBlocks =
        modId ++ ':' :: normalizeIdPath (some value) "generated".data) ∧
    (isLiteralIdentifier value = false →
      normalizeIdPath (some value) "generated".data ∉ generatedItems →
      normalizeIdPath (some value) "generated".data ∉ generatedBlocks →
      resolveItemLikeId value modId generatedItems generatedBlocks =
        "minecraft".data ++ ':' :: normalizeIdPath (some value) "generated".data) := by
  refine ⟨?_, ?_, ?_⟩
  · intro h
    simp [resolveItemLikeId, h]
  · intro h hmem
    have hor : (generatedItems.contains (normalizeIdPath (some value) "generated".data) ||
        generatedBlocks.contains (normalizeIdPath (some value) "generated".data)) = true := by
      rcases hmem with hm | hm
      · have hc : generatedItems.contains
            (normalizeIdPath (some value) "generated".data) = true := by
          simpa [List.elem_iff] using hm
        rw [hc, Bool.true_or]
      · have hc : generatedBlocks.contains
            (normalizeIdPath (some value) "generated".data) = true := by
          simpa [List.elem_iff] using hm
        rw [hc, Bool.or_true]
    simp only [resolveItemLikeId]
    rw [if_neg (by simp [h]), if_pos hor]
  · intro h hi hb
    have hor : (generatedItems.contains (normalizeIdPath (some value) "generated".data) ||
        generatedBlocks.contains (normalizeIdPath (some value) "generated".data)) = false := by
      have hci : generatedItems.contains
          (normalizeIdPath (some value) "generated".data) = false := by
        rw [Bool.eq_false_iff]
        intro hcc
        exact hi (by simpa [List.elem_iff] using hcc)
      have hcb : generatedBlocks.contains
          (normalizeIdPath (some value) "generated".data) = false := by
        rw [Bool.eq_false_iff]
        intro hcc
        exact hb (by simpa [List.elem_iff] using hcc)
      rw [hci, hcb, Bool.or_false]
    simp only [resolveItemLikeId]
    rw [if_neg (by simp [h]), if_neg (by rw [hor]; exact Bool.false_ne_true)]

/-- C1 witness: the spec's ruby scenario (bare declared item name gets the
mod's namespace), a strict literal passed through, and an undeclared bare
name qualified with "minecraft". -/
theorem c1_witness :
    resolveItemLikeId "ruby".data "demo_mod".data ["ruby".data] ["ruby_block".data] =
      "demo_mod:ruby".data ∧
    resolveItemLikeId "minecraft:stick".data "demo_mod".data ["ruby".data]
      ["ruby_block".data] = "minecraft:stick".data ∧
    resolveItemLikeId "stick".data "demo_mod".data ["ruby".data] ["ruby_block".data] =
      "minecraft:stick".data := by
  refine ⟨?_, ?_, ?_⟩
  · have h := (c1_resolveItemLikeId_spec "ruby".data "demo_mod".data ["ruby".data]
      ["ruby_block".data]).2.1 (by decide) (Or.inl (by decide))
    exact h.trans (by decide)
  · exact (c1_resolveItemLikeId_spec "minecraft:stick".data "demo_mod".data
      ["ruby".data] ["ruby_block".data]).1 (by decide)
  · have h := (c1_resolveItemLikeId_spec "stick".data "demo_mod".data ["ruby".data]
      ["ruby_block".data]).2.2 (by decide) (by decide) (by decide)
    exact h.trans (by decide)

/-! ## Action-capture lemmas -/

theorem sendConsole_push (m : Mod) (ctx : List JVal) (t : List (List JVal))
    (command : String) (h : m.captureStack = ctx :: t) :
    sendConsole m command =
      { m with captureStack := (ctx ++ [consoleAction command]) :: t } := by
  unfold sendConsole
  rw [h]

theorem runProg_stack_inv :
    ∀ (pr : HProg) (m : Mod) (ctx : List JVal) (t : List (List JVal)),
      m.captureStack = ctx :: t →
      (runProg m pr).1.startupActions = m.startupActions ∧
      ∃ c2, (runProg m pr).1.captureStack = c2 :: t ∧
        ((runProg m pr).2 = false → c2 = ctx ++ progSends pr)
  | .nil, m, ctx, t, h => by
    refine ⟨by simp [runProg], ctx, ?_, ?_⟩
    · simpa [runProg] using h
    · intro _; simp [progSends]
  | .seq (.send c) rest, m, ctx, t, h => by
    have hstep := sendConsole_push m ctx t c h
    have hrec := runProg_stack_inv rest (sendConsole m c) (ctx ++ [consoleAction c]) t
      (by rw [hstep])
    obtain ⟨hsu, c2, hst, hres⟩ := hrec
    have hrun : runProg m (.seq (.send c) rest) = runProg (sendConsole m c) rest := by
      simp [runProg]
    refine ⟨?_, c2, ?_, ?_⟩
    · rw [hrun, hsu, hstep]
    · rw [hrun]; exact hst
    · intro hf
      rw [hrun] at hf
      rw [hres hf, progSends, List.append_assoc]
      rfl
  | .seq .fail rest, m, ctx, t, h => by
    refine ⟨by simp [runProg], ctx, by simpa [runProg] using h, ?_⟩
    intro hf
    simp [runProg] at hf
  | .seq (.nest sub) rest, m, ctx, t, h => by
    have hpush : ({ m with captureStack := [] :: m.captureStack }).captureStack
        = [] :: ctx :: t := by simp [h]
    obtain ⟨isu, ic2, ist, _⟩ :=
      runProg_stack_inv sub { m with captureStack := [] :: m.captureStack } [] (ctx :: t) hpush
    have hpop : (runCaptureStep m sub).1.captureStack = ctx :: t := by
      simp [runCaptureStep, ist]
    have hpopsu : (runCaptureStep m sub).1.startupActions = m.startupActions := by
      simpa [runCaptureStep] using isu
    by_cases hr : (runCaptureStep m sub).2 = true
    · have hrun : runProg m (.seq (.nest sub) rest) = ((runCaptureStep m sub).1, true) := by
        simp [runProg, hr]
      refine ⟨by rw [hrun]; exact hpopsu, ctx, by rw [hrun]; exact hpop, ?_⟩
      intro hf
      rw [hrun] at hf
      simp at hf
    · have hrun : runProg m (.seq (.nest sub) rest)
          = runProg (runCaptureStep m sub).1 rest := by
        simp [runProg, hr]
      obtain ⟨rsu, rc2, rst, rres⟩ :=
        runProg_stack_inv rest (runCaptureStep m sub).1 ctx t hpop
      refine ⟨?_, rc2, ?_, ?_⟩
      · rw [hrun, rsu, hpopsu]
      · rw [hrun]; exact rst
      · intro hf
        rw [hrun] at hf
        rw [rres hf, progSends]

theorem runProg_raises_eq :
    ∀ (pr : HProg) (m : Mod), (runProg m pr).2 = progRaises pr
  | .nil, _ => by simp [runProg, progRaises]
  | .seq (.send c) rest, m => by
    simpa [runProg, progRaises] using runProg_raises_eq rest (sendConsole m c)
  | .seq .fail rest, m => by simp [runProg, progRaises]
  | .seq (.nest sub) rest, m => by
    have hin : (runCaptureStep m sub).2 = progRaises sub := by
      simpa [runCaptureStep] using
        runProg_raises_eq sub { m with captureStack := [] :: m.captureStack }
    by_cases hr : (runCaptureStep m sub).2 = true
    · simp [runProg, hr, progRaises, ← hin]
    · have hrun : runProg m (.seq (.nest sub) rest)
          = runProg (runCaptureStep m sub).1 rest := by
        simp [runProg, hr]
      rw [hrun, runProg_raises_eq rest, progRaises, ← hin]
      simp at hr
      simp [hr]

/-! ## C5 -/

/-- C5: `_run_action_capture` pushes a fresh context, runs the handler,
and pops the context whether or not the handler raised, leaving the stack
and the startup actions as they were; the recorded result is exactly the
handler's `sendConsole` actions in call order (and is discarded when the
handler raises); `sendConsole` under an active context appends one action
record to the innermost context, and with no active context appends to the
mod's startup-action list; two sends in one handler are recorded as a
two-element list in call order. -/
theorem c5_action_capture_contract :
    (∀ (m : Mod) (proc : HProg),
      (runActionCapture m proc).1.captureStack = m.captureStack ∧
      (runActionCapture m proc).1.startupActions = m.startupActions ∧
      (runActionCapture m proc).2 =
        (if progRaises proc then none else some (progSends proc))) ∧
    (∀ (m : Mod) (top : List JVal) (rest : List (List JVal)) (command : String),
      sendConsole { m with captureStack := top :: rest } command =
        { m with captureStack := (top ++ [consoleAction command]) :: rest }) ∧
    (∀ (m : Mod) (command : String),
      sendConsole { m with captureStack := [] } command =
        { m with captureStack := [],
                 startupActions := m.startupActions ++ [consoleAction command] }) ∧
    (∀ (m : Mod) (a b : String),
      (runActionCapture m (.seq (.send a) (.seq (.send b) .nil))).2 =
        some [consoleAction a, consoleAction b]) := by
  have main : ∀ (m : Mod) (proc : HProg),
      (runActionCapture m proc).1.captureStack = m.captureStack ∧
      (runActionCapture m proc).1.startupActions = m.startupActions ∧
      (runActionCapture m proc).2 =
        (if progRaises proc then none else some (progSends proc)) := by
    intro m proc
    obtain ⟨hsu, c2, hst, hres⟩ :=
      runProg_stack_inv proc { m with captureStack := [] :: m.captureStack } []
        m.captureStack rfl
    have hflag := runProg_raises_eq proc { m with captureStack := [] :: m.captureStack }
    by_cases hr2 : (runProg { m with captureStack := [] :: m.captureStack } proc).2 = true
    · have hra : runActionCapture m proc =
          ({ (runProg { m with captureStack := [] :: m.captureStack } proc).1 with
              captureStack :=
                (runProg { m with captureStack := [] :: m.captureStack }
                  proc).1.captureStack.tail }, none) := by
        simp [runActionCapture, hr2]
      have hpr : progRaises proc = true := by rw [← hflag]; exact hr2
      refine ⟨?_, ?_, ?_⟩
      · rw [hra]; simp [hst]
      · rw [hra]; simpa using hsu
      · rw [hra, if_pos hpr]
    · have hferr : (runProg { m with captureStack := [] :: m.captureStack } proc).2
          = false := by simpa using hr2
      have hra : runActionCapture m proc =
          ({ (runProg { m with captureStack := [] :: m.captureStack } proc).1 with
              captureStack :=
                (runProg { m with captureStack := [] :: m.captureStack }
                  proc).1.captureStack.tail },
            some ((runProg { m with captureStack := [] :: m.captureStack }
              proc).1.captureStack.headD [])) := by
        simp [runActionCapture, hferr]
      have hpr : progRaises proc = false := by rw [← hflag]; exact hferr
      refine ⟨?_, ?_, ?_⟩
      · rw [hra]; simp [hst]
      · rw [hra]; simpa using hsu
      · rw [hra, if_neg (by simp [hpr])]
        simp [hst, hres hferr]
  refine ⟨main, ?_, ?_, ?_⟩
  · intro m top rest command
    rfl
  · intro m command
    rfl
  · intro m a b
    have h := (main m (.seq (.send a) (.seq (.send b) .nil))).2.2
    simpa [progRaises, progSends] using h

/-! ## C6 -/

theorem runActionCapture_single_send (m : Mod) (c : String) :
    runActionCapture m (.seq (.send c) .nil) = (m, some [consoleAction c]) := by
  have h1 : runProg { m with captureStack := [] :: m.captureStack } (.seq (.send c) .nil)
      = ({ m with captureStack := [consoleAction c] :: m.captureStack }, false) := by
    simp [runProg, sendConsole]
  simp [runActionCapture, h1]

/-- C6: an Item declared with display name "Foo" stores the normalized
element name "foo"; after one "Use" handler whose body performs a single
`sendConsole("ping")`, its serialized form carries the kind tag "item",
the name "foo", and an events table binding "Use" to exactly one captured
action list holding the single console action; the mod manifest embeds
that serialized element in declaration order. -/
theorem c6_manifest_scenario :
    fooItem.name = "foo" ∧
    registerEvent fooMod fooItem "Use" (.seq (.send "ping") .nil) =
      .ok (fooMod, fooItemRegistered) ∧
    toDict fooItemRegistered =
      .obj [("kind", .str "item"), ("name", .str "foo"),
            ("properties", .obj
              [("identifier", .str "foo"), ("display_name", .str "Foo"),
               ("texture", .null), ("model", .null), ("creative_tab", .null),
               ("max_count", .int 64), ("durability", .null),
               ("fireproof", .bool false), ("rarity", .str "COMMON")]),
            ("events", .obj [("Use",
              .arr [.arr [.obj [("type", .str "console"),
                                ("command", .str "ping")]]])])] ∧
    toManifest (addElement fooMod fooItemRegistered) =
      .obj [("author", .str "tester"), ("generator", .str "minecraft-fabric-1.21.11"),
            ("mod_id", .str "examplemod"), ("name", .str "Example Mod"),
            ("version", .str "0.1.0"), ("startup_actions", .arr []),
            ("elements", .arr [toDict fooItemRegistered])] := by
  refine ⟨rfl, ?_, rfl, rfl⟩
  have h := runActionCapture_single_send fooMod "ping"
  simp [registerEvent, h, eventsAppend, fooItemRegistered]
  decide

/-! ## Registry lemmas -/

theorem assocGet_assocSet_self {α : Type} :
    ∀ (l : List (String × α)) (k : String) (v : α),
      assocGet (assocSet l k v) k = some v
  | [], k, v => by simp [assocSet, assocGet]
  | (k0, v0) :: rest, k, v => by
    by_cases hk : k0 = k
    · simp [assocSet, assocGet, hk]
    · simp only [assocSet, hk, if_false, ite_false, assocGet]
      exact assocGet_assocSet_self rest k v

/-! ## C7 -/

/-- C7: the registry contract.  Registering an already-present key with
`replace = false` fails with the duplicate-key error (and, the model being
functional, no new registry is produced, so the table is unchanged);
registering with `replace = true` succeeds and a subsequent lookup of the
key returns the new instance; an empty key always fails; looking up an
absent key fails with the not-found error carrying the key; listing
returns exactly the registered keys in sorted order. -/
theorem c7_registry_contract :
    (∀ (reg : Registry) (g : Generator), g.key ≠ "" →
      (assocGet reg g.key).isSome = true →
      registerGenerator reg g false =
        .error ("Generator already registered: " ++ g.key)) ∧
    (∀ (reg : Registry) (g : Generator), g.key ≠ "" →
      registerGenerator reg g true = .ok (assocSet reg g.key g) ∧
      getGenerator (assocSet reg g.key g) g.key = .ok g) ∧
    (∀ (reg : Registry) (g : Generator) (replace : Bool), g.key = "" →
      registerGenerator reg g replace =
        .error "Generator key must be a non-empty string") ∧
    (∀ (reg : Registry) (key : String), assocGet reg key = none →
      getGenerator reg key = .error key) ∧
    (∀ reg : Registry,
      List.Sorted (· ≤ ·) (listGenerators reg) ∧
      ∀ k, k ∈ listGenerators reg ↔ ∃ g, (k, g) ∈ reg) := by
  refine ⟨?_, ?_, ?_, ?_, ?_⟩
  · intro reg g hne hsome
    simp [registerGenerator, hne, hsome]
  · intro reg g hne
    constructor
    · simp [registerGenerator, hne]
    · simp [getGenerator, assocGet_assocSet_self]
  · intro reg g replace hempty
    simp [registerGenerator, hempty]
  · intro reg key hnone
    simp [getGenerator, hnone]
  · intro reg
    constructor
    · exact List.sorted_mergeSort' _
    · intro k
      unfold listGenerators
      rw [(List.mergeSort_perm (reg.map Prod.fst) _).mem_iff, List.mem_map]
      constructor
      · rintro ⟨⟨k0, g⟩, hmem, rfl⟩
        exact ⟨g, hmem⟩
      · rintro ⟨g, hg⟩
        exact ⟨(k, g), hg, rfl⟩

/-- C7 witness: the built-in registry already holds the Fabric generator,
so re-registering without `replace` fails, re-registering with `replace`
succeeds and is then found, an empty-keyed generator is rejected, and an
absent key is a not-found error. -/
theorem c7_witness :
    registerGenerator builtinRegistry fabricGenerator false =
      .error ("Generator already registered: " ++ fabricGenerator.key) ∧
    registerGenerator builtinRegistry fabricGenerator true =
      .ok (assocSet builtinRegistry fabricGenerator.key fabricGenerator) ∧
    getGenerator (assocSet builtinRegistry fabricGenerator.key fabricGenerator)
      fabricGenerator.key = .ok fabricGenerator ∧
    registerGenerator builtinRegistry { key := "", elementTypes := [] } false =
      .error "Generator key must be a non-empty string" ∧
    getGenerator builtinRegistry "does-not-exist" = .error "does-not-exist" ∧
    List.Sorted (· ≤ ·) (listGenerators builtinRegistry) := by
  refine ⟨?_, ?_, ?_, ?_, ?_, ?_⟩
  · exact (c7_registry_contract.1 builtinRegistry fabricGenerator (by decide) (by decide))
  · exact ((c7_registry_contract.2.1 builtinRegistry fabricGenerator (by decide)).1)
  · exact ((c7_registry_contract.2.1 builtinRegistry fabricGenerator (by decide)).2)
  · exact (c7_registry_contract.2.2.1 builtinRegistry
      { key := "", elementTypes := [] } false rfl)
  · exact (c7_registry_contract.2.2.2.1 builtinRegistry "does-not-exist" (by decide))
  · exact (c7_registry_contract.2.2.2.2 builtinRegistry).1

/-! ## C8 -/

/-- C8: constructing a Mod with an unregistered generator key fails with
the not-found error carrying the key, before any element exists;
construction with a registered key succeeds and binds that generator (with
an empty element list); requesting a category the bound generator does not
offer is an attribute error, while the supported "Item" category resolves
to the item constructor, which builds an element of kind "item". -/
theorem c8_mod_binding_contract :
    (∀ (reg : Registry) (author key modId name version : String),
      assocGet reg key = none →
      mkMod reg author key modId name version = .error key) ∧
    (∀ (reg : Registry) (author key modId name version : String) (g : Generator),
      assocGet reg key = some g →
      mkMod reg author key modId name version =
        .ok { author := author, modId := modId, name := name, version := version,
              generatorKey := key, generator := g, elements := [],
              startupActions := [], captureStack := [] }) ∧
    (∀ (m : Mod) (attr : String), assocGet m.generator.elementTypes attr = none →
      modGetattr m attr = .error attr) ∧
    (∀ (m : Mod) (attr : String) (et : FabCategory),
      assocGet m.generator.elementTypes attr = some et →
      modGetattr m attr = .ok et) ∧
    (modGetattr fooMod "Spell" = .error "Spell" ∧
     modGetattr fooMod "Item" = .ok .item ∧
     (fabricItemMk none (some "Spark") none none none 64 none false "common").kind
       = "item") := by
  refine ⟨?_, ?_, ?_, ?_, rfl, rfl, rfl⟩
  · intro reg author key modId name version hnone
    simp [mkMod, getGenerator, hnone]
  · intro reg author key modId name version g hsome
    simp [mkMod, getGenerator, hsome]
  · intro m attr hnone
    simp [modGetattr, hnone]
  · intro m attr et hsome
    simp [modGetattr, hsome]

/-- C8 witness: against the built-in registry, an unknown key fails at
construction and the Fabric key lands on `fooMod`. -/
theorem c8_witness :
    mkMod builtinRegistry "tester" "does-not-exist" "examplemod" "Example Mod"
      "0.1.0" = .error "does-not-exist" ∧
    mkMod builtinRegistry "tester" "minecraft-fabric-1.21.11" "examplemod"
      "Example Mod" "0.1.0" = .ok fooMod := by
  constructor
  · exact c8_mod_binding_contract.1 builtinRegistry "tester" "does-not-exist"
      "examplemod" "Example Mod" "0.1.0" (by decide)
  · exact c8_mod_binding_contract.2.1 builtinRegistry "tester"
      "minecraft-fabric-1.21.11" "examplemod" "Example Mod" "0.1.0" fabricGenerator rfl

/-! ## C9 -/

/-- C9 counterexample: the claim says an Item with `max_count` below 1 (or
an Entity with non-positive width or max health) fails construction with a
validation error; the code instead constructs the element and silently
clamps the value into range.  `max_count = 0` yields the same stored
element as `max_count = 1`, and an entity with zero width and zero max
health is built with width 1/10 and max health 1. -/
theorem c9_counterexample :
    (fabricItemMk none (some "Foo") none none none 0 none false "common").properties
      = (fabricItemMk none (some "Foo") none none none 1 none false "common").properties ∧
    assocGet (fabricItemMk none (some "Foo") none none none 0 none false
      "common").properties "max_count" = some (.int 1) ∧
    (fabricEntityMk none (some "Crusher") "creature" 0 (39 / 20) 0 (1 / 4) 2 none
        .cNone .cNone 8 3 false).toOption.map
      (fun e => (assocGet e.properties "width", assocGet e.properties "max_health"))
      = some (some (.rat (1 / 10)), some (.rat 1)) := by
  refine ⟨rfl, rfl, ?_⟩
  have h1 : (max (1 / 10 : Rat) 0) = 1 / 10 := by norm_num
  have h2 : (max (1 : Rat) 0) = 1 := by norm_num
  simp [fabricEntityMk, parseColor, assocGet, Except.toOption, h1, h2]

/-- C9 (amended): out-of-range numeric fields do not fail construction;
they are silently clamped into range by the constructor (`max_count` and
`durability` to at least 1, entity width to at least 1/10, max health to at
least 1, tracking range to at least 1), and the element with the clamped
values is stored. -/
theorem c9_numeric_clamping (identifier name texture model creativeTab : Option String)
    (maxCount d : Int) (fireproof : Bool) (rarity : String) (spawnGroup : String)
    (width height maxHealth movementSpeed attackDamage : Rat)
    (trackingRange trackedUpdateRate : Int) (b : Bool) :
    assocGet (fabricItemMk identifier name texture model creativeTab maxCount
      (some d) fireproof rarity).properties "max_count" = some (.int (max 1 maxCount)) ∧
    assocGet (fabricItemMk identifier name texture model creativeTab maxCount
      (some d) fireproof rarity).properties "durability" = some (.int (max 1 d)) ∧
    ∃ e, fabricEntityMk identifier name spawnGroup width height maxHealth
        movementSpeed attackDamage creativeTab .cNone .cNone trackingRange
        trackedUpdateRate b = .ok e ∧
      assocGet e.properties "width" = some (.rat (max (1 / 10) width)) ∧
      assocGet e.properties "max_health" = some (.rat (max 1 maxHealth)) ∧
      assocGet e.properties "tracking_range" = some (.int (max 1 trackingRange)) := by
  refine ⟨rfl, rfl, ⟨_, rfl, rfl, rfl, rfl⟩⟩

/-! ## C10 -/

theorem assocSet_self_eq {α : Type} :
    ∀ (l : List (String × α)) (k : String) (v : α),
      assocGet l k = some v → assocSet l k v = l
  | [], k, v, h => by simp [assocGet] at h
  | (k0, v0) :: rest, k, v, h => by
    by_cases hk : k0 = k
    · simp only [assocGet, hk, if_pos] at h
      simp only [assocSet, hk, if_pos]
      rw [Option.some_inj] at h
      rw [h]
    · simp only [assocGet, hk, if_false, ite_false] at h
      simp only [assocSet, hk, if_false, ite_false]
      rw [assocSet_self_eq rest k v h]

/-- C10: for a `placed_feature` worldgen entry whose resolved payload has
the string field `feature = "minecraft:ore_diamond"`, the field is
rewritten to `"minecraft:ore_diamond_small"` before the data file is
written; any other string value, any non-string or absent `feature` field,
and any other worldgen type pass through unchanged. -/
theorem c10_worldgen_alias :
    (∀ payload : List (String × JVal),
      assocGet payload "feature" = some (.str "minecraft:ore_diamond") →
      applyWorldgenFeatureAlias "placed_feature" payload =
        assocSet payload "feature" (.str "minecraft:ore_diamond_small")) ∧
    (∀ (payload : List (String × JVal)) (f : String), f ≠ "minecraft:ore_diamond" →
      assocGet payload "feature" = some (.str f) →
      applyWorldgenFeatureAlias "placed_feature" payload = payload) ∧
    (∀ (payload : List (String × JVal)) (v : JVal), (∀ s, v ≠ .str s) →
      assocGet payload "feature" = some v →
      applyWorldgenFeatureAlias "placed_feature" payload = payload) ∧
    (∀ payload : List (String × JVal), assocGet payload "feature" = none →
      applyWorldgenFeatureAlias "placed_feature" payload = payload) ∧
    (∀ (worldgenType : String) (payload : List (String × JVal)),
      worldgenType ≠ "placed_feature" →
      applyWorldgenFeatureAlias worldgenType payload = payload) := by
  refine ⟨?_, ?_, ?_, ?_, ?_⟩
  · intro payload h
    simp [applyWorldgenFeatureAlias, h, WORLDGEN_FEATURE_ALIASES, assocGet]
  · intro payload f hf h
    have halias : assocGet WORLDGEN_FEATURE_ALIASES f = none := by
      simp [WORLDGEN_FEATURE_ALIASES, assocGet, Ne.symm hf]
    simp only [applyWorldgenFeatureAlias, if_pos rfl, h, halias, Option.getD_none]
    exact assocSet_self_eq payload "feature" (.str f) h
  · intro payload v hv h
    simp only [applyWorldgenFeatureAlias, if_pos rfl, h]
    match v, hv with
    | .null, _ => rfl
    | .bool b, _ => rfl
    | .int n, _ => rfl
    | .rat q, _ => rfl
    | .str s, hv => exact absurd rfl (hv s)
    | .arr xs, _ => rfl
    | .obj fs, _ => rfl
  · intro payload h
    simp [applyWorldgenFeatureAlias, h]
  · intro worldgenType payload h
    simp [applyWorldgenFeatureAlias, h]

/-- C10 witness: the test suite's payload is rewritten; a different
feature id and a different worldgen type pass through. -/
theorem c10_witness :
    applyWorldgenFeatureAlias "placed_feature"
      [("feature", .str "minecraft:ore_diamond"), ("placement", .arr [])] =
      [("feature", .str "minecraft:ore_diamond_small"), ("placement", .arr [])] ∧
    applyWorldgenFeatureAlias "placed_feature"
      [("feature", .str "minecraft:ore_iron")] =
      [("feature", .str "minecraft:ore_iron")] ∧
    applyWorldgenFeatureAlias "configured_feature"
      [("feature", .str "minecraft:ore_diamond")] =
      [("feature", .str "minecraft:ore_diamond")] := by
  refine ⟨?_, ?_, ?_⟩
  · exact (c10_worldgen_alias.1
      [("feature", .str "minecraft:ore_diamond"), ("placement", .arr [])] rfl).trans rfl
  · exact c10_worldgen_alias.2.1 [("feature", .str "minecraft:ore_iron")]
      "minecraft:ore_iron" (by decide) rfl
  · exact c10_worldgen_alias.2.2.2.2 "configured_feature" _ (by decide)

/-! ## C2 -/

theorem applyWrites_congrAt :
    ∀ (writes : List (List String × String))
      (fs1 fs2 : List String → Option String) (p : List String),
      fs1 p = fs2 p → applyWrites writes fs1 p = applyWrites writes fs2 p
  | [], _, _, _, h => h
  | w :: ws, fs1, fs2, p, h => by
    simp only [applyWrites]
    exact applyWrites_congrAt ws _ _ p (by by_cases hp : p = w.1 <;> simp [hp, h])

theorem applyWrites_not_written :
    ∀ (writes : List (List String × String)) (fs : List String → Option String)
      (p : List String), p ∉ writes.map Prod.fst → applyWrites writes fs p = fs p
  | [], _, _, _ => rfl
  | w :: ws, fs, p, h => by
    simp only [List.map_cons, List.mem_cons, not_or] at h
    simp only [applyWrites]
    rw [applyWrites_not_written ws _ p h.2]
    simp [h.1]

/-- C2: compilation first removes the whole target root
`output_dir/<mod_id>-fabric-<minecraft_version>` and then emits writes
computed only from the aggregate and its side inputs, so two runs with the
same emitted writes produce byte-identical trees under the root regardless
of the prior file-system state; under the root, any path not written in
this run is absent afterwards (no stale files), and re-running over the
previous output changes nothing under the root. -/
theorem c2_compile_idempotent (outputDir : List String) (modId : String)
    (writes : List (List String × String)) (fs1 fs2 : List String → Option String) :
    (∀ p, (fabricRootPath outputDir modId).isPrefixOf p = true →
      runCompileEmission (fabricRootPath outputDir modId) writes fs1 p =
        runCompileEmission (fabricRootPath outputDir modId) writes fs2 p) ∧
    (∀ p, (fabricRootPath outputDir modId).isPrefixOf p = true →
      p ∉ writes.map Prod.fst →
      runCompileEmission (fabricRootPath outputDir modId) writes fs1 p = none) ∧
    (∀ p, (fabricRootPath outputDir modId).isPrefixOf p = true →
      runCompileEmission (fabricRootPath outputDir modId) writes
          (runCompileEmission (fabricRootPath outputDir modId) writes fs1) p =
        runCompileEmission (fabricRootPath outputDir modId) writes fs1 p) := by
  have hremove : ∀ (fs : List String → Option String) (p : List String),
      (fabricRootPath outputDir modId).isPrefixOf p = true →
      removeTree (fabricRootPath outputDir modId) fs p = none := by
    intro fs p hp
    simp [removeTree, hp]
  refine ⟨?_, ?_, ?_⟩
  · intro p hp
    exact applyWrites_congrAt writes _ _ p (by rw [hremove fs1 p hp, hremove fs2 p hp])
  · intro p hp hw
    unfold runCompileEmission
    rw [applyWrites_not_written writes _ p hw]
    exact hremove fs1 p hp
  · intro p hp
    exact applyWrites_congrAt writes _ _ p
      (by rw [hremove _ p hp, hremove fs1 p hp])

/-- C2 witness: a concrete root, one emitted file, and a prior state with
a stale file under the root: both runs agree under the root, the stale
path is gone, and re-running is a fixed point there. -/
theorem c2_witness :
    runCompileEmission (fabricRootPath ["build"] "examplemod")
        [(fabricRootPath ["build"] "examplemod" ++ ["README.md"], "readme")]
        (fun p => if p = fabricRootPath ["build"] "examplemod" ++ ["stale.txt"]
                  then some "old" else none)
        (fabricRootPath ["build"] "examplemod" ++ ["stale.txt"]) =
      runCompileEmission (fabricRootPath ["build"] "examplemod")
        [(fabricRootPath ["build"] "examplemod" ++ ["README.md"], "readme")]
        (fun _ => none)
        (fabricRootPath ["build"] "examplemod" ++ ["stale.txt"]) ∧
    runCompileEmission (fabricRootPath ["build"] "examplemod")
        [(fabricRootPath ["build"] "examplemod" ++ ["README.md"], "readme")]
        (fun p => if p = fabricRootPath ["build"] "examplemod" ++ ["stale.txt"]
                  then some "old" else none)
        (fabricRootPath ["build"] "examplemod" ++ ["stale.txt"]) = none := by
  constructor
  · exact (c2_compile_idempotent ["build"] "examplemod"
      [(fabricRootPath ["build"] "examplemod" ++ ["README.md"], "readme")]
      (fun p => if p = fabricRootPath ["build"] "examplemod" ++ ["stale.txt"]
                then some "old" else none)
      (fun _ => none)).1
      (fabricRootPath ["build"] "examplemod" ++ ["stale.txt"]) (by decide)
  · exact (c2_compile_idempotent ["build"] "examplemod"
      [(fabricRootPath ["build"] "examplemod" ++ ["README.md"], "readme")]
      (fun p => if p = fabricRootPath ["build"] "examplemod" ++ ["stale.txt"]
                then some "old" else none)
      (fun _ => none)).2.1
      (fabricRootPath ["build"] "examplemod" ++ ["stale.txt"]) (by decide) (by decide)

end ModPy
